import Mathlib

/-!
Shallow embedding of django-processes (src/processes/models.py and
src/processes/management/commands/process_server.py), with theorems checking
the natural-language specification against the code.

Conventions of the embedding:
* Django model rows become the structure `Process` below; machine timestamps
  become `Int` values; booleans stay `Bool`; text fields stay `String`.
* A Python exception is a value of `PyExc`; a method body that either returns
  normally or raises is summarised by its observable behaviour
  `Option PyExc` (`none` = normal return, `some e` = raises `e`).
* `self.save()` calls are recorded as a trace of persisted states.
* Logging calls, the uuid field and the `modified` timestamp are side effects
  irrelevant to the claims and are elided.
-/

/-- Behaviour of `ProcessError` (raised by task code) and of every other
Python exception. `ProcessError` is imported from `processes.exceptions`,
which is not part of the sources at hand; it is modelled from the spec:
a domain-specific error carrying a short message (`msg`) and an optional
debug detail (`debug`, a Python attribute that may be `None` or a string).
Every other exception (`NotImplementedError`, `ValueError`, ...) is collapsed
into `otherError` carrying an informal description, since `Process.run`
handles all of them alike through its bare `except:` clause. -/
inductive PyExc where
  | processError (msg : String) (debug : Option String)
  | otherError (info : String)
deriving DecidableEq

/-- Python truthiness of the `e.debug` attribute as tested by `if e.debug:`
in `Process.run`: `None` and the empty string are falsy, any other string is
truthy. -/
def pyTruthy : Option String → Bool
  | none => false
  | some s => !(s == "")

/-- The persisted fields of the `Process` Django model
(src/processes/models.py): `processing`, `completed`, `error` flags
(all default `False`), the `error_msg` / `debug_msg` text fields
(default blank), and the `created` timestamp. `uuid` and `modified` are
elided (never read by the code under verification). -/
structure Process where
  created : Int := 0
  processing : Bool := false
  completed : Bool := false
  error : Bool := false
  error_msg : String := ""
  debug_msg : String := ""
deriving DecidableEq

/-- A freshly created record: all flags `False`, text fields blank —
the `Pending` state in the spec's vocabulary. -/
def pendingInit : Process := {}

/-- The try-block body of `Process.run`:
`self.setup(); self.run_process(); self.teardown()` executed in order,
stopping at the first raised exception. Arguments are the behaviours of the
three overridable methods. Returns the first exception raised (or `none`)
together with the number of times `teardown` was invoked. -/
def tryBody (setupB run_processB teardownB : Option PyExc) : Option PyExc × Nat :=
  match setupB with
  | some e => (some e, 0)
  | none =>
    match run_processB with
    | some e => (some e, 0)
    | none =>
      match teardownB with
      | some e => (some e, 1)
      | none => (none, 1)

/-- Result of one call to `Process.run`: the final in-memory state, the trace
of states passed to `self.save()` in order, and how many times `teardown`
was invoked. -/
structure RunResult where
  final : Process
  saves : List Process
  teardownCalls : Nat
deriving DecidableEq

/-- Embedding of `Process.run` (src/processes/models.py). `self` starts as
`s0`; `setupB`, `run_processB`, `teardownB` are the behaviours of the three
overridable methods, `trace` is the text `traceback.print_exc` would capture.
The method sets `processing = True` and saves, runs the try block, classifies
the outcome in the two `except` clauses and the `else` clause, and in the
`finally` clause resets `processing = False` and saves again. A raised
exception would surface as `Except.error`; every branch below is a handler,
so the value is always `Except.ok`. -/
def Process.run (s0 : Process) (setupB run_processB teardownB : Option PyExc)
    (trace : String) : Except PyExc RunResult :=
  let s1 : Process := { s0 with processing := true }
  match tryBody setupB run_processB teardownB with
  | (some (.processError m d), tc) =>
    let dmsg : String :=
      match d with
      | some dd => if dd == "" then trace else dd
      | none => trace
    let s2 : Process := { s1 with
        error := true,
        error_msg := m,
        debug_msg := dmsg }
    let s3 : Process := { s2 with processing := false }
    .ok ⟨s3, [s1, s3], tc⟩
  | (some (.otherError _), tc) =>
    let s2 : Process := { s1 with
        error := true,
        error_msg := "Unknown error!",
        debug_msg := trace }
    let s3 : Process := { s2 with processing := false }
    .ok ⟨s3, [s1, s3], tc⟩
  | (none, tc) =>
    let s2 : Process := { s1 with completed := true }
    let s3 : Process := { s2 with processing := false }
    .ok ⟨s3, [s1, s3], tc⟩

/-- The `RunResult` of `Process.run`, extracted from the `Except` wrapper.
The `Except.error` branch is unreachable (`run_eq_ok` below). -/
def Process.runResult (s0 : Process) (setupB run_processB teardownB : Option PyExc)
    (trace : String) : RunResult :=
  match Process.run s0 setupB run_processB teardownB trace with
  | .ok r => r
  | .error _ => ⟨s0, [], 0⟩

/-- Behaviour of the default `Process.setup`: `pass`, returns normally. -/
def Process.setup : Option PyExc := none

/-- Behaviour of the default `Process.teardown`: `pass`, returns normally. -/
def Process.teardown : Option PyExc := none

/-- Behaviour of the default `Process.run_process`: raises
`NotImplementedError`, which is not a `ProcessError`. -/
def Process.run_process : Option PyExc :=
  some (.otherError "NotImplementedError: You must override this function in order for your process to run.")

theorem run_eq_ok (s0 : Process) (setupB run_processB teardownB : Option PyExc)
    (trace : String) :
    Process.run s0 setupB run_processB teardownB trace =
      .ok (Process.runResult s0 setupB run_processB teardownB trace) := by
  rcases setupB with _ | e
  · rcases run_processB with _ | e
    · rcases teardownB with _ | e
      · rfl
      · rcases e with ⟨m, d⟩ | n <;> rfl
    · rcases e with ⟨m, d⟩ | n <;> rfl
  · rcases e with ⟨m, d⟩ | n <;> rfl

/-!
Scheduler loop (src/processes/management/commands/process_server.py).
The database visible to the command is a list of `Process` rows (the
concatenation of the rows of every `Process` subclass, matching the
`for pclass in subclasses` accumulation in `Command.handle`).
-/

/-- Embedding of the `ProcessSort` comparison function: `cmp`-style result
on the `created` timestamps (1, 0 or -1). -/
def ProcessSort (x y : Process) : Int :=
  if x.created > y.created then 1
  else if x.created = y.created then 0
  else -1

/-- The ordering induced by `ProcessSort` as used by `list.sort(cmp=...)`:
`x` sorts no later than `y` when the comparison is non-positive. -/
def createdLE (x y : Process) : Prop := ProcessSort x y ≤ 0

theorem createdLE_iff (x y : Process) : createdLE x y ↔ x.created ≤ y.created := by
  unfold createdLE ProcessSort
  split
  · omega
  · split <;> omega

instance : DecidableRel createdLE :=
  fun x y => inferInstanceAs (Decidable (ProcessSort x y ≤ 0))

instance : IsTotal Process createdLE :=
  ⟨fun x y => by
    rcases Int.le_total x.created y.created with h | h
    · exact Or.inl ((createdLE_iff x y).2 h)
    · exact Or.inr ((createdLE_iff y x).2 h)⟩

instance : IsTrans Process createdLE :=
  ⟨fun x y z hxy hyz =>
    (createdLE_iff x z).2 (le_trans ((createdLE_iff x y).1 hxy) ((createdLE_iff y z).1 hyz))⟩

/-- Embedding of the running-count accumulation in `Command.handle`:
`pclass.objects.filter(processing=True).count()` summed over subclasses. -/
def processingCount (db : List Process) : Nat :=
  (db.filter (fun r => r.processing)).length

/-- Embedding of the candidate query in `Command.handle`:
`pclass.objects.filter(completed=False,processing=False,error=False)`
accumulated over subclasses. -/
def queuedProcesses (db : List Process) : List Process :=
  db.filter (fun r => !r.completed && !r.processing && !r.error)

/-- One iteration of the `while(True)` body of `Command.handle`, up to the
dispatch step: compute `to_run = self.max_processes - processing`; if positive,
build the candidate list, sort it with `ProcessSort` (Python `list.sort` is a
stable sort, embedded as insertion sort, which agrees with every stable sort),
and start the first `to_run` candidates. The returned list is the batch of
records on which `start()` (hence `Process.run`) is invoked this cycle;
`sleep` and logging are elided. -/
def Command.handleCycle (max_processes : Int) (db : List Process) : List Process :=
  let processing : Int := processingCount db
  let to_run : Int := max_processes - processing
  if 0 < to_run then
    let processes := List.insertionSort createdLE (queuedProcesses db)
    if 0 < processes.length then processes.take to_run.toNat else []
  else []

/-!
Option handling of the `process_server` command (`Command.parse_options`).
Python strings are embedded as `List Char` here so that splitting and
lowering stay kernel-computable. Logger construction and pidfile writing are
I/O and are elided; what is kept is the option dictionary the code builds and
the two scheduling attributes the code actually sets.
-/

/-- A Python value stored in the options dictionary. -/
inductive PyVal where
  | pyNone
  | pyInt (n : Int)
  | pyStr (s : List Char)
  | pyBool (b : Bool)
deriving DecidableEq

/-- Embedding of `x.split('=', 1)` preceded by the `"=" in x` test:
`none` when the string has no `'='`, otherwise the part before the first
`'='` and everything after it. -/
def splitEqOnce : List Char → Option (List Char × List Char)
  | [] => none
  | c :: rest =>
    if c = '=' then some ([], rest)
    else
      match splitEqOnce rest with
      | some (k, v) => some (c :: k, v)
      | none => none

/-- Embedding of `str.lower()`. -/
def lowerChars (s : List Char) : List Char := s.map Char.toLower

/-- The `PROCESS_RESULTS_OPTIONS` default dictionary, as an association list.
Later entries are shadowed by updates prepended in front. -/
def PROCESS_RESULTS_OPTIONS : List (List Char × PyVal) :=
  [("logname".toList, .pyNone),
   ("logfile".toList, .pyNone),
   ("maxprocesses".toList, .pyInt 2),
   ("waittime".toList, .pyInt 20),
   ("pidfile".toList, .pyNone)]

/-- Dictionary lookup: the most recent binding of a key wins. -/
def dictGet (d : List (List Char × PyVal)) (k : List Char) : Option PyVal :=
  match d with
  | [] => none
  | (k2, v) :: rest => if k2 = k then some v else dictGet rest k

/-- The option-dictionary phase of `Command.parse_options`: start from a copy
of `PROCESS_RESULTS_OPTIONS`; for each positional argument, split on the
first `'='` into key and value (key-only arguments get the value `True`) and
store under the lowercased key. -/
def Command.parse_options_dict (args : List (List Char)) : List (List Char × PyVal) :=
  args.foldl
    (fun options x =>
      match splitEqOnce x with
      | some (k, v) => (lowerChars k, .pyStr v) :: options
      | none => (lowerChars x, .pyBool true) :: options)
    PROCESS_RESULTS_OPTIONS

/-- The scheduling attributes set by `Command.parse_options`: after building
the option dictionary, the code assigns
`self.max_processes = getattr(settings, "MAX_PROCESSES", 4)` and
`self.wait_time = getattr(settings, "PROCESS_WAIT_TIME", 20)`; the parsed
dictionary is not consulted for either attribute. The two `Option Int`
arguments are the `MAX_PROCESSES` / `PROCESS_WAIT_TIME` Django settings
(`none` when the setting is absent). Returns `(max_processes, wait_time)`. -/
def Command.parse_options (args : List (List Char))
    (MAX_PROCESSES PROCESS_WAIT_TIME : Option Int) : Int × Int :=
  let _options := Command.parse_options_dict args
  (MAX_PROCESSES.getD 4, PROCESS_WAIT_TIME.getD 20)

/-!
Claim theorems: task executor (claims C1, C2, C3, C4, C7, C10).
-/

/-- Claim C1 counterexample: teardown is NOT invoked unconditionally. In an
execution where `run_process` raises (here the default `NotImplementedError`),
`teardown` is invoked zero times, not exactly once: the call to `teardown`
sits inside the `try` block, after `run_process`, not in a finally-equivalent
position. -/
theorem C1_counterexample :
    (Process.runResult pendingInit none
      (some (.otherError "RuntimeError")) none "TB").teardownCalls = 0 := by
  decide

/-- Claim C1 as amended: `teardown` is invoked exactly once when `setup` and
`run_process` both return normally (including when `teardown` itself raises),
and zero times when `setup` or `run_process` raises. -/
theorem C1_teardown_iff_work_succeeds (s0 : Process)
    (setupB run_processB teardownB : Option PyExc) (trace : String) :
    (Process.runResult s0 setupB run_processB teardownB trace).teardownCalls =
      (match setupB, run_processB with
        | none, none => 1
        | _, _ => 0) := by
  rcases setupB with _ | e
  · rcases run_processB with _ | e
    · rcases teardownB with _ | e
      · rfl
      · rcases e with ⟨m, d⟩ | n <;> rfl
    · rcases e with ⟨m, d⟩ | n <;> rfl
  · rcases e with ⟨m, d⟩ | n <;> rfl

/-- Claim C2 counterexample: when `setup` and `run_process` succeed but
`teardown` raises a `ProcessError`, the record does NOT end Completed: the
exception is caught by the `except ProcessError` clause, so the record ends
Failed (`error = True`, `completed = False`) with the teardown exception's
message in `error_msg` — the teardown fault is promoted to the record's error
state, not merely logged. -/
theorem C2_counterexample :
    (Process.runResult pendingInit none none
      (some (.processError "boom" none)) "TB").final.completed = false ∧
    (Process.runResult pendingInit none none
      (some (.processError "boom" none)) "TB").final.error = true ∧
    (Process.runResult pendingInit none none
      (some (.processError "boom" none)) "TB").final.error_msg = "boom" := by
  decide

/-- Claim C2 as amended: a `teardown` exception after successful work is
handled like any work-step failure — the record ends Failed
(`error = True`) and Completed is never set, for every kind of exception. -/
theorem C2_teardown_fault_fails_record (e : PyExc) (trace : String) :
    (Process.runResult pendingInit none none (some e) trace).final.error = true ∧
    (Process.runResult pendingInit none none (some e) trace).final.completed = false := by
  rcases e with ⟨m, d⟩ | n <;> exact ⟨rfl, rfl⟩

/-- Claim C3: for every behaviour of the three steps and every starting
state, `Process.run` returns normally (`Except.ok`, so no exception escapes
the executor into the scheduler loop), and exactly one persisted state has
`processing = False` — the final persist, which is the last save and equals
the final state. -/
theorem C3_containment_and_single_final_persist (s0 : Process)
    (setupB run_processB teardownB : Option PyExc) (trace : String) :
    ∃ r : RunResult,
      Process.run s0 setupB run_processB teardownB trace = Except.ok r ∧
      (r.saves.filter (fun p => !p.processing)).length = 1 ∧
      r.saves.getLast? = some r.final ∧
      r.final.processing = false := by
  rcases setupB with _ | e
  · rcases run_processB with _ | e
    · rcases teardownB with _ | e
      · exact ⟨_, run_eq_ok _ _ _ _ _, rfl, rfl, rfl⟩
      · rcases e with ⟨m, d⟩ | n <;> exact ⟨_, run_eq_ok _ _ _ _ _, rfl, rfl, rfl⟩
    · rcases e with ⟨m, d⟩ | n <;> exact ⟨_, run_eq_ok _ _ _ _ _, rfl, rfl, rfl⟩
  · rcases e with ⟨m, d⟩ | n <;> exact ⟨_, run_eq_ok _ _ _ _ _, rfl, rfl, rfl⟩

/-- Spec-side outcome classification (claim C4 as amended), written from the
spec's words: no failure gives Completed; a `ProcessError` with message `m`
gives Failed with `error_msg = m` and `debug_msg` equal to the supplied
detail when that detail is truthy (present and non-empty), otherwise the
captured stack trace; any other exception gives Failed with the generic
message and the captured stack trace. -/
def specOutcome (firstRaised : Option PyExc) (trace : String) : Process :=
  match firstRaised with
  | none => { completed := true }
  | some (.processError m d) =>
    { error := true,
      error_msg := m,
      debug_msg := if pyTruthy d then d.getD "" else trace }
  | some (.otherError _) =>
    { error := true,
      error_msg := "Unknown error!",
      debug_msg := trace }

theorem dmsg_truthy (d : Option String) (trace : String) :
    (match d with
      | some dd => if dd = "" then trace else dd
      | none => trace) = if pyTruthy d = true then d.getD "" else trace := by
  rcases d with _ | dd
  · simp [pyTruthy]
  · by_cases h : dd = ""
    · simp [pyTruthy, h]
    · simp [pyTruthy, h]

/-- Claim C4 counterexample: a `ProcessError` whose debug detail is supplied
but empty does not end with `debug_msg` equal to that supplied detail; the
`if e.debug:` truthiness test treats the empty string as absent, so the
captured stack trace is recorded instead. -/
theorem C4_counterexample :
    (Process.runResult pendingInit none
      (some (.processError "disk full" (some ""))) none
      "Traceback").final.debug_msg = "Traceback" ∧
    ¬ (Process.runResult pendingInit none
      (some (.processError "disk full" (some ""))) none
      "Traceback").final.debug_msg = "" := by
  decide

/-- Claim C4 as amended: starting from a fresh Pending record, the final
state of every execution is exactly the spec-side classification of the
first raised exception, with the supplied debug detail used only when it is
truthy (present and non-empty). -/
theorem C4_outcome_classification
    (setupB run_processB teardownB : Option PyExc) (trace : String) :
    (Process.runResult pendingInit setupB run_processB teardownB trace).final =
      specOutcome (tryBody setupB run_processB teardownB).1 trace := by
  rcases setupB with _ | e
  · rcases run_processB with _ | e
    · rcases teardownB with _ | e
      · rfl
      · rcases e with ⟨m, d⟩ | n
        · simp [Process.runResult, Process.run, tryBody, specOutcome, pendingInit]
          exact dmsg_truthy d trace
        · rfl
    · rcases e with ⟨m, d⟩ | n
      · simp [Process.runResult, Process.run, tryBody, specOutcome, pendingInit]
        exact dmsg_truthy d trace
      · rfl
  · rcases e with ⟨m, d⟩ | n
    · simp [Process.runResult, Process.run, tryBody, specOutcome, pendingInit]
      exact dmsg_truthy d trace
    · rfl

/-- Claim C7 counterexample: there is no admission guard. Running a record
that is already Completed (not Pending) does not fail and is not free of
side effects: the executor persists a state with `processing = True` while
`completed = True`, executes the body (teardown invoked), and persists
again. -/
theorem C7_counterexample :
    (Process.runResult { completed := true } none none none "").saves.head? =
      some { completed := true, processing := true } ∧
    (Process.runResult { completed := true } none none none "").saves.length = 2 ∧
    (Process.runResult { completed := true } none none none "").teardownCalls = 1 := by
  decide

/-- Claim C7 as amended: starting a task unconditionally sets
`processing = True` and persists, whatever the record's current status —
there is no atomic compare-and-set and no Pending precondition, so a lost
race is not detected and concurrent double-starts are not prevented by the
executor. For every starting state the first persist is the Running-flagged
copy of that state and the execution always runs to its final persist. -/
theorem C7_no_admission_guard (s0 : Process)
    (setupB run_processB teardownB : Option PyExc) (trace : String) :
    (Process.runResult s0 setupB run_processB teardownB trace).saves.head? =
      some { s0 with processing := true } ∧
    (Process.runResult s0 setupB run_processB teardownB trace).saves.length = 2 := by
  rcases setupB with _ | e
  · rcases run_processB with _ | e
    · rcases teardownB with _ | e
      · exact ⟨rfl, rfl⟩
      · rcases e with ⟨m, d⟩ | n <;> exact ⟨rfl, rfl⟩
    · rcases e with ⟨m, d⟩ | n <;> exact ⟨rfl, rfl⟩
  · rcases e with ⟨m, d⟩ | n <;> exact ⟨rfl, rfl⟩

/-- Claim C10: with the default method bodies (`setup`/`teardown` pass,
`run_process` raises `NotImplementedError`), the execution is contained
(`Except.ok`): the record ends Failed with `error_msg = "Unknown error!"`,
the captured stack trace in `debug_msg`, `processing` reset, and `teardown`
never reached. -/
theorem C10_default_run_process_contained (trace : String) :
    Process.run pendingInit Process.setup Process.run_process Process.teardown trace =
      Except.ok
        ⟨{ error := true, error_msg := "Unknown error!", debug_msg := trace },
         [{ pendingInit with processing := true },
          { error := true, error_msg := "Unknown error!", debug_msg := trace }],
         0⟩ := by
  rfl

/-!
Claim theorems: scheduler loop (claims C5, C6, C8, C9).
-/

theorem mem_handleCycle {r : Process} {maxp : Int} {db : List Process}
    (hr : r ∈ Command.handleCycle maxp db) : r ∈ queuedProcesses db := by
  simp only [Command.handleCycle] at hr
  split at hr
  · split at hr
    · exact ((List.perm_insertionSort createdLE (queuedProcesses db)).mem_iff).1
        (List.mem_of_mem_take hr)
    · simp at hr
  · simp at hr

theorem handleCycle_length (maxp : Int) (db : List Process) :
    ((Command.handleCycle maxp db).length : Int) =
      min (max 0 (maxp - (processingCount db : Int)))
        ((queuedProcesses db).length : Int) := by
  simp only [Command.handleCycle]
  split
  · split
    · rw [List.length_take,
        (List.perm_insertionSort createdLE (queuedProcesses db)).length_eq]
      push_cast
      omega
    · have hlen :
          (List.insertionSort createdLE (queuedProcesses db)).length =
            (queuedProcesses db).length :=
        (List.perm_insertionSort createdLE (queuedProcesses db)).length_eq
      simp only [List.length_nil]
      omega
  · simp only [List.length_nil]
    omega

/-- Claim C5: in every cycle the dispatched batch has size
`min (max 0 (max_processes - running)) pending`; a cycle that starts at or
above capacity dispatches nothing; and a cycle that starts within capacity
never ends above `max_processes`. -/
theorem C5_capacity_invariant (maxp : Int) (db : List Process) :
    ((Command.handleCycle maxp db).length : Int) =
      min (max 0 (maxp - (processingCount db : Int)))
        ((queuedProcesses db).length : Int)
    ∧ (maxp ≤ (processingCount db : Int) → Command.handleCycle maxp db = [])
    ∧ ((processingCount db : Int) ≤ maxp →
        (processingCount db : Int) + ((Command.handleCycle maxp db).length : Int) ≤ maxp) := by
  have hlen := handleCycle_length maxp db
  refine ⟨hlen, ?_, ?_⟩
  · intro h
    have h0 : (Command.handleCycle maxp db).length = 0 := by omega
    exact List.eq_nil_of_length_eq_zero h0
  · intro h
    omega

/-- A database with three running records and nothing pending, used to
evaluate the capacity theorem at its boundary. -/
def dbFull : List Process :=
  [{ processing := true }, { processing := true }, { processing := true }]

/-- Witness for C5 at `max_processes = 3` with three running records: the
cycle dispatches nothing and stays at capacity. -/
theorem C5_capacity_invariant_witness :
    Command.handleCycle 3 dbFull = [] ∧
    (processingCount dbFull : Int) + ((Command.handleCycle 3 dbFull).length : Int) ≤ 3 :=
  ⟨(C5_capacity_invariant 3 dbFull).2.1 (by decide),
   (C5_capacity_invariant 3 dbFull).2.2 (by decide)⟩

/-- Claim C6: given pending records with pairwise distinct creation times,
the dispatched batch is sorted strictly by creation time, drawn from the
pending records, every pending record left out is strictly newer than every
batch member, and the batch size is exactly the available capacity clipped
to the number of pending records. -/
theorem C6_fifo_order (maxp : Int) (db : List Process)
    (hdist : (queuedProcesses db).Pairwise (fun a b => a.created ≠ b.created)) :
    List.Pairwise (fun a b => a.created < b.created) (Command.handleCycle maxp db)
    ∧ (∀ b ∈ Command.handleCycle maxp db, b ∈ queuedProcesses db)
    ∧ (∀ b ∈ Command.handleCycle maxp db, ∀ c ∈ queuedProcesses db,
        c ∉ Command.handleCycle maxp db → b.created < c.created)
    ∧ ((Command.handleCycle maxp db).length : Int) =
        min (max 0 (maxp - (processingCount db : Int)))
          ((queuedProcesses db).length : Int) := by
  have hperm := List.perm_insertionSort createdLE (queuedProcesses db)
  have hsorted := List.sorted_insertionSort createdLE (queuedProcesses db)
  have hne : (List.insertionSort createdLE (queuedProcesses db)).Pairwise
      (fun a b => a.created ≠ b.created) :=
    (List.Perm.pairwise_iff (fun hxy => Ne.symm hxy) hperm).2 hdist
  refine ⟨?_, fun b hb => mem_handleCycle hb, ?_, handleCycle_length maxp db⟩
  · have hbatch : ∀ n, List.Pairwise (fun a b => a.created < b.created)
        ((List.insertionSort createdLE (queuedProcesses db)).take n) := by
      intro n
      have hpw := List.Pairwise.sublist
        (List.take_sublist n (List.insertionSort createdLE (queuedProcesses db)))
        (List.Pairwise.and hsorted hne)
      exact hpw.imp (fun hab => lt_of_le_of_ne ((createdLE_iff _ _).1 hab.1) hab.2)
    simp only [Command.handleCycle]
    split
    · split
      · exact hbatch _
      · exact List.Pairwise.nil
    · exact List.Pairwise.nil
  · intro b hb c hc hcnot
    have hkey : ∀ n, b ∈ (List.insertionSort createdLE (queuedProcesses db)).take n →
        c ∉ (List.insertionSort createdLE (queuedProcesses db)).take n →
        b.created < c.created := by
      intro n hbt hct
      have hcS : c ∈ List.insertionSort createdLE (queuedProcesses db) :=
        hperm.mem_iff.2 hc
      have hcdrop : c ∈ (List.insertionSort createdLE (queuedProcesses db)).drop n := by
        rw [← List.take_append_drop n (List.insertionSort createdLE (queuedProcesses db))]
          at hcS
        rcases List.mem_append.1 hcS with h | h
        · exact absurd h hct
        · exact h
      have hle : createdLE b c := hsorted.rel_of_mem_take_of_mem_drop hbt hcdrop
      have hpwa := hne
      rw [← List.take_append_drop n (List.insertionSort createdLE (queuedProcesses db))]
        at hpwa
      have hne2 : b.created ≠ c.created :=
        (List.pairwise_append.1 hpwa).2.2 b hbt c hcdrop
      exact lt_of_le_of_ne ((createdLE_iff b c).1 hle) hne2
    simp only [Command.handleCycle] at hb hcnot
    by_cases h1 : 0 < maxp - (processingCount db : Int)
    · by_cases h2 : 0 < (List.insertionSort createdLE (queuedProcesses db)).length
      · rw [if_pos h1, if_pos h2] at hb hcnot
        exact hkey _ hb hcnot
      · rw [if_pos h1, if_neg h2] at hb
        simp at hb
    · rw [if_neg h1] at hb
      simp at hb

/-- Three pending records with distinct creation times, out of order. -/
def dbQueued : List Process :=
  [{ created := 3 }, { created := 1 }, { created := 2 }]

/-- Witness for C6 at `max_processes = 2` over three pending records with
distinct creation times: the dispatched batch is strictly ascending in
creation time. -/
theorem C6_fifo_order_witness :
    List.Pairwise (fun a b => a.created < b.created) (Command.handleCycle 2 dbQueued) :=
  (C6_fifo_order 2 dbQueued (by decide)).1

/-- Derived-status invariant of one persisted record state: at most one of
the `processing` / `completed` / `error` flags is set (so exactly one of
Pending, Running, Completed, Failed holds), and the `error_msg` /
`debug_msg` fields are blank unless the record is Failed. -/
def statusInvB (p : Process) : Bool :=
  !(p.processing && p.completed) && !(p.processing && p.error) &&
    !(p.completed && p.error) &&
    ((p.error_msg == "") || p.error) && ((p.debug_msg == "") || p.error)

/-- Claim C8: every state persisted while running a fresh Pending record
satisfies the status invariant, whatever the three steps do; the scheduler
only ever starts records that are neither processing nor completed nor
errored (so the core never runs — hence never transitions — a record that
has reached Completed or Failed); and a freshly created record satisfies the
invariant. -/
theorem C8_record_status_invariant :
    (∀ (setupB run_processB teardownB : Option PyExc) (trace : String),
      (Process.runResult pendingInit setupB run_processB teardownB trace).saves.all
        statusInvB = true)
    ∧ (∀ (maxp : Int) (db : List Process),
        (Command.handleCycle maxp db).all
          (fun r => !r.completed && !r.processing && !r.error) = true)
    ∧ statusInvB pendingInit = true := by
  refine ⟨?_, ?_, by decide⟩
  · intro setupB run_processB teardownB trace
    rcases setupB with _ | e
    · rcases run_processB with _ | e
      · rcases teardownB with _ | e
        · rfl
        · rcases e with ⟨m, d⟩ | n <;>
            simp [Process.runResult, Process.run, tryBody, statusInvB, pendingInit]
      · rcases e with ⟨m, d⟩ | n <;>
          simp [Process.runResult, Process.run, tryBody, statusInvB, pendingInit]
    · rcases e with ⟨m, d⟩ | n <;>
        simp [Process.runResult, Process.run, tryBody, statusInvB, pendingInit]
  · intro maxp db
    rw [List.all_eq_true]
    intro r hr
    exact (List.mem_filter.1 (mem_handleCycle hr)).2

/-- Claim C9 (a bug in `Command.parse_options`): the `maxprocesses=10` and
`waittime=5` arguments are recognized and parsed into the option dictionary,
yet the attributes that drive scheduling come from the Django settings
(absent here), so `max_processes = 4` and `wait_time = 20`; indeed for every
argument list whatsoever the attributes are the same. This contradicts the
function's own docstring, which documents `maxprocesses` / `waittime` as
arguments and says it sets the concurrency cap and wait time from them. -/
theorem C9_parsed_options_have_no_effect :
    dictGet (Command.parse_options_dict ["maxprocesses=10".toList, "waittime=5".toList])
        "maxprocesses".toList = some (.pyStr "10".toList)
    ∧ dictGet (Command.parse_options_dict ["maxprocesses=10".toList, "waittime=5".toList])
        "waittime".toList = some (.pyStr "5".toList)
    ∧ Command.parse_options ["maxprocesses=10".toList, "waittime=5".toList] none none = (4, 20)
    ∧ (∀ args : List (List Char), Command.parse_options args none none = (4, 20)) := by
  refine ⟨by decide, by decide, by decide, fun args => rfl⟩
